import Mathlib

/-!
Verification of the Dungeon Crawler game engine (`project 2/dungeon.py`).

The data model and operations below are a shallow embedding of the Python
source: `DungeonLayout`, `Player`, `Monster`, `DungeonState` with its
`next_turn` and `score` methods, and the `DungeonGame` methods
`is_terminal`, `get_actions` and `get_successor`, plus the stochastic
`MonsterAgent` controller.  Python `set` becomes `Finset`, Python `int`
inventory counters become `Int` (so that subtraction behaves as in Python),
`time` and `turn` (which the code keeps non-negative) become `Nat`, and the
real-valued `score` is computed in `ℚ`.
-/

namespace Dungeon

/-- A 2D integer point, as in the external `mathutils.Point` (value type,
equality by coordinates). -/
structure Point where
  x : Int
  y : Int
deriving DecidableEq, Repr

instance : Add Point := ⟨fun p q => ⟨p.x + q.x, p.y + q.y⟩⟩

/-- Modelled from the spec: the direction enumeration of the external
`mathutils` module (not under `src/`), with members UP, DOWN, LEFT, RIGHT
and NONE. -/
inductive Direction where
  | UP
  | DOWN
  | LEFT
  | RIGHT
  | NONE
deriving DecidableEq, Repr

/-- Modelled from the spec: `Direction.to_vector` maps the four movement
directions to unit vectors and NONE to the zero vector (y grows downward,
as in the grid parser). -/
def Direction.to_vector : Direction → Point
  | .UP => ⟨0, -1⟩
  | .DOWN => ⟨0, 1⟩
  | .LEFT => ⟨-1, 0⟩
  | .RIGHT => ⟨1, 0⟩
  | .NONE => ⟨0, 0⟩

/-- Modelled from the spec: iterating over the Python `Direction` enum
(`for direction in Direction`) yields all five members, NONE included. -/
def Direction.all : List Direction := [.UP, .DOWN, .LEFT, .RIGHT, .NONE]

/-- Source `DungeonLayout`: static level description.  The source field `exit` is
called `exitCell` here. -/
structure DungeonLayout where
  width : Int
  height : Int
  walkable : Finset Point
  exitCell : Point
deriving DecidableEq

/-- Source `Player.Inventory`: three integer counters. -/
structure Inventory where
  daggers : Int
  coins : Int
  keys : Int
deriving DecidableEq, Repr

/-- Source `Player`: position, alive flag and inventory. -/
structure Player where
  position : Point
  alive : Bool
  inventory : Inventory
deriving DecidableEq, Repr

/-- Source `Monster`: position and alive flag. -/
structure Monster where
  position : Point
  alive : Bool
deriving DecidableEq, Repr

/-- Source `DungeonState`: the mutable per-turn snapshot. -/
structure DungeonState where
  time : Nat
  turn : Nat
  layout : DungeonLayout
  player : Player
  coins : Finset Point
  daggers : Finset Point
  keys : Finset Point
  monsters : List Monster
deriving DecidableEq

/-- The scan loop of `DungeonState.next_turn`: starting at index `t`, find
the first alive monster and return its index plus one, or `0` when the list
is exhausted. -/
def nextTurnFrom (ms : List Monster) (t : Nat) : Nat :=
  if h : t < ms.length then
    if (ms.get ⟨t, h⟩).alive then t + 1
    else nextTurnFrom ms (t + 1)
  else 0
termination_by ms.length - t

/-- Source `DungeonState.next_turn`: the next turn, ignoring all dead monsters. -/
def DungeonState.next_turn (s : DungeonState) : Nat :=
  nextTurnFrom s.monsters s.turn

/-- Embedding of `sum(not monster.alive for monster in monsters)`: the number of dead
monsters. -/
def deadCount (ms : List Monster) : Nat :=
  (ms.filter (fun m => !m.alive)).length

/-- Source `DungeonState.score`: 1 point per coin, 10 per dead monster, −0.1 per
time unit, computed exactly in `ℚ`. -/
def DungeonState.score (s : DungeonState) : ℚ :=
  (s.player.inventory.coins : ℚ) + 10 * (deadCount s.monsters : ℚ)
    - (1 / 10) * (s.time : ℚ)

/-- Source `DungeonGame`: the layout and the initial state. -/
structure DungeonGame where
  layout : DungeonLayout
  initial_state : DungeonState

/-- Source `DungeonGame.get_initial_state`. -/
def DungeonGame.get_initial_state (g : DungeonGame) : DungeonState :=
  g.initial_state

/-- Source `DungeonGame.agent_count`: one player plus the monsters. -/
def DungeonGame.agent_count (g : DungeonGame) : Nat :=
  1 + g.initial_state.monsters.length

/-- Constant `INFINITY = 1e8` of `is_terminal`, exact in `ℚ`. -/
def INFINITY : ℚ := 100000000

/-- Source `DungeonGame.is_terminal`: win when holding a key at the exit, loss when
the player is dead, otherwise not terminal. -/
def DungeonGame.is_terminal (g : DungeonGame) (s : DungeonState) :
    Bool × Option (List ℚ) :=
  if s.player.inventory.keys ≠ 0 ∧ s.player.position = g.layout.exitCell then
    ((true : Bool),
      some ((INFINITY + s.score) :: s.monsters.map (fun _ => -(INFINITY + s.score))))
  else
    if s.player.alive then ((false : Bool), none)
    else ((true : Bool), some ((-INFINITY) :: s.monsters.map (fun _ => INFINITY)))

/-- Source `DungeonGame.get_turn`. -/
def DungeonGame.get_turn (g : DungeonGame) (s : DungeonState) : Nat :=
  s.turn

/-- The positions of the alive monsters other than the one at `index`
(`monster_locations` in `get_actions`). -/
def otherAlivePositions (ms : List Monster) (index : Nat) : List Point :=
  (ms.enum.filter (fun p => p.1 ≠ index ∧ p.2.alive)).map (fun p => p.2.position)

/-- Source `DungeonGame.get_actions`: for the player, every direction whose
destination is walkable; for a monster, every direction whose destination is
walkable and not occupied by another alive monster; the empty list for a
dead monster.  Indexing a monster whose turn value is out of range raises in
Python; here that (invariant-excluded) case returns the empty list. -/
def DungeonGame.get_actions (g : DungeonGame) (s : DungeonState) :
    List Direction :=
  if s.turn = 0 then
    Direction.all.filter
      (fun d => decide ((s.player.position + d.to_vector) ∈ s.layout.walkable))
  else
    let index := s.turn - 1
    match s.monsters[index]? with
    | none => []
    | some m =>
      if !m.alive then []
      else
        Direction.all.filter (fun d =>
          decide ((m.position + d.to_vector) ∈ s.layout.walkable) &&
          decide ((m.position + d.to_vector) ∉ otherAlivePositions s.monsters index))

/-- The player half of `get_successor`: move, pick up items, then resolve
combat against all alive monsters on the destination cell. -/
def playerStep (s : DungeonState) (action : Direction) : DungeonState :=
  let new_position := s.player.position + action.to_vector
  let pickCoin := new_position ∈ s.coins
  let pickDagger := new_position ∈ s.daggers
  let pickKey := new_position ∈ s.keys
  let coins' := if pickCoin then s.coins.erase new_position else s.coins
  let daggers' := if pickDagger then s.daggers.erase new_position else s.daggers
  let keys' := if pickKey then s.keys.erase new_position else s.keys
  let invCoins := s.player.inventory.coins + (if pickCoin then 1 else 0)
  let invDaggers := s.player.inventory.daggers + (if pickDagger then 1 else 0)
  let invKeys := s.player.inventory.keys + (if pickKey then 1 else 0)
  let M := (s.monsters.filter
    (fun m => decide (m.position = new_position) && m.alive)).length
  if 0 < M then
    if invDaggers < (M : Int) then
      { s with
        player :=
          { position := new_position, alive := false,
            inventory := { daggers := 0, coins := invCoins, keys := invKeys } },
        coins := coins', daggers := daggers', keys := keys' }
    else
      { s with
        player :=
          { position := new_position, alive := s.player.alive,
            inventory :=
              { daggers := invDaggers - (M : Int), coins := invCoins,
                keys := invKeys } },
        coins := coins', daggers := daggers', keys := keys',
        monsters := s.monsters.map (fun m =>
          if m.position = new_position ∧ m.alive = true then
            { m with alive := false }
          else m) }
  else
    { s with
      player :=
        { position := new_position, alive := s.player.alive,
          inventory :=
            { daggers := invDaggers, coins := invCoins, keys := invKeys } },
      coins := coins', daggers := daggers', keys := keys' }

/-- The monster half of `get_successor`: move monster `turn - 1`, then
resolve the encounter with the player if they now share a cell.  Indexing
out of range raises in Python; here that (invariant-excluded) case returns
the state unchanged. -/
def monsterStep (s : DungeonState) (action : Direction) : DungeonState :=
  let index := s.turn - 1
  match s.monsters[index]? with
  | none => s
  | some m =>
    let new_position := m.position + action.to_vector
    if new_position = s.player.position then
      if s.player.inventory.daggers ≠ 0 then
        { s with
          monsters := s.monsters.set index { position := new_position, alive := false },
          player :=
            { s.player with
              inventory :=
                { s.player.inventory with
                  daggers := s.player.inventory.daggers - 1 } } }
      else
        { s with
          monsters := s.monsters.set index { m with position := new_position },
          player := { s.player with alive := false } }
    else
      { s with
        monsters := s.monsters.set index { m with position := new_position } }

/-- The tail of `get_successor`: advance the turn with `next_turn` over the
post-action monsters, and tick the clock when control returns to the
player. -/
def advanceTurn (s : DungeonState) : DungeonState :=
  let t := s.next_turn
  { s with turn := t, time := if t = 0 then s.time + 1 else s.time }

/-- Source `DungeonGame.get_successor`: apply the mover's action, then advance the
turn and the clock. -/
def DungeonGame.get_successor (g : DungeonGame) (s : DungeonState)
    (action : Direction) : DungeonState :=
  advanceTurn (if s.turn = 0 then playerStep s action else monsterStep s action)

/-- The persistent per-monster controller state of `MonsterAgent`: the
committed direction and the step counter (the random generator is modelled
as oracle inputs to `monsterAct`). -/
structure MonsterAgentState where
  current_direction : Direction
  steps : Nat
deriving DecidableEq, Repr

/-- Source `MonsterAgent.__select_new_action`: reset the step counter and commit to
a movement action picked by the random index draw, or to NONE when no
movement action is legal.  `intDraw` stands for `rng.int(0, len-1)`, always
in range for the actual generator. -/
def selectNewAction (actions : List Direction) (intDraw : Nat) :
    MonsterAgentState :=
  let movement_actions := actions.filter (fun a => decide (a ≠ Direction.NONE))
  if movement_actions.isEmpty then
    { current_direction := Direction.NONE, steps := 0 }
  else
    { current_direction := movement_actions.getD intDraw Direction.NONE,
      steps := 0 }

/-- Source `MonsterAgent.act`: resample when the committed direction is NONE, or
no longer legal, or the (lazily drawn) uniform float exceeds the inertia
threshold `2^(-steps / min(width, height))`; then increment the step counter
and return the committed direction.  The external random generator
(`helpers/mt19937`, not under `src/`) is modelled by two oracle inputs:
`floatExceeds` is the outcome of the float comparison, `intDraw` the index
draw used on a resample. -/
def monsterAct (g : DungeonGame) (s : DungeonState) (a : MonsterAgentState)
    (floatExceeds : Bool) (intDraw : Nat) : Direction × MonsterAgentState :=
  let actions := g.get_actions s
  let a' :=
    if a.current_direction = Direction.NONE ∨ a.current_direction ∉ actions ∨
        floatExceeds = true then
      selectNewAction actions intDraw
    else a
  let a'' := { a' with steps := a'.steps + 1 }
  (a''.current_direction, a'')

/-- The monster stored at index `i`, with a dead placeholder out of range
(used only to state theorems; all theorems keep indices in range). -/
def monsterAt (ms : List Monster) (i : Nat) : Monster :=
  ms.getD i ⟨⟨0, 0⟩, false⟩

/-- The turns visited by iterating `turn := next_turn(state)` from turn `t`
until control returns to the player (turn `0`), with explicit fuel. -/
def turnTraceAux (ms : List Monster) (t : Nat) : Nat → List Nat
  | 0 => []
  | fuel + 1 =>
    let next := nextTurnFrom ms t
    if next = 0 then [] else next :: turnTraceAux ms next fuel

/-- The turns visited by iterating `next_turn` starting from the player's
turn `0`, until the turn is `0` again. -/
def turnTrace (ms : List Monster) : List Nat :=
  turnTraceAux ms 0 (ms.length + 1)

/-- The turn values of the alive monsters with index at least `t`, in
increasing index order. -/
def aliveTurnsFrom (ms : List Monster) (t : Nat) : List Nat :=
  ((List.range' t (ms.length - t)).filter
    (fun i => (monsterAt ms i).alive)).map (fun i => i + 1)

/-- The §3 data-model invariants used by the preservation claim: the player
and every alive monster stand on walkable cells, and the coin, dagger and
key floor sets are pairwise disjoint. -/
def Inv (s : DungeonState) : Prop :=
  s.player.position ∈ s.layout.walkable ∧
  (∀ m ∈ s.monsters, m.alive = true → m.position ∈ s.layout.walkable) ∧
  (∀ p ∈ s.coins, p ∉ s.daggers) ∧
  (∀ p ∈ s.coins, p ∉ s.keys) ∧
  (∀ p ∈ s.daggers, p ∉ s.keys)

/-- A concrete 3×1 corridor layout (cells (0,0), (1,0), (2,0); exit at
(2,0)) used by the witnesses. -/
def layout0 : DungeonLayout :=
  { width := 3, height := 1,
    walkable := {⟨0, 0⟩, ⟨1, 0⟩, ⟨2, 0⟩}, exitCell := ⟨2, 0⟩ }

/-- A concrete state on `layout0`: player at (0,0) holding nothing, one
alive monster at (2,0), player's turn. -/
def state0 : DungeonState :=
  { time := 0, turn := 0, layout := layout0,
    player := { position := ⟨0, 0⟩, alive := true,
                inventory := { daggers := 0, coins := 0, keys := 0 } },
    coins := ∅, daggers := ∅, keys := ∅,
    monsters := [{ position := ⟨2, 0⟩, alive := true }] }

/-- A concrete game on `layout0` with `state0` as the initial state. -/
def game0 : DungeonGame := { layout := layout0, initial_state := state0 }

/-- A concrete state on `layout0`: player at (1,0) with two daggers and a
key, two alive monsters at (2,0), player's turn. -/
def state1 : DungeonState :=
  { time := 3, turn := 0, layout := layout0,
    player := { position := ⟨1, 0⟩, alive := true,
                inventory := { daggers := 2, coins := 0, keys := 1 } },
    coins := ∅, daggers := ∅, keys := ∅,
    monsters := [{ position := ⟨2, 0⟩, alive := true },
                 { position := ⟨2, 0⟩, alive := true }] }

/-- A concrete state on `layout0`: monster 0's turn (turn = 1), monster at
(1,0) next to the player at (0,0), player holding one dagger. -/
def state2 : DungeonState :=
  { time := 0, turn := 1, layout := layout0,
    player := { position := ⟨0, 0⟩, alive := true,
                inventory := { daggers := 1, coins := 0, keys := 0 } },
    coins := ∅, daggers := ∅, keys := ∅,
    monsters := [{ position := ⟨1, 0⟩, alive := true }] }

/-- A concrete state on `layout0`: a dead player away from the exit, used
for the loss branch of `is_terminal`. -/
def state3 : DungeonState :=
  { time := 1, turn := 0, layout := layout0,
    player := { position := ⟨1, 0⟩, alive := false,
                inventory := { daggers := 0, coins := 0, keys := 0 } },
    coins := ∅, daggers := ∅, keys := ∅,
    monsters := [{ position := ⟨2, 0⟩, alive := true }] }

/-- A concrete state on `layout0`: player standing on the exit with a key,
used for the win branch of `is_terminal`. -/
def state4 : DungeonState :=
  { time := 2, turn := 0, layout := layout0,
    player := { position := ⟨2, 0⟩, alive := true,
                inventory := { daggers := 0, coins := 3, keys := 1 } },
    coins := ∅, daggers := ∅, keys := ∅,
    monsters := [{ position := ⟨0, 0⟩, alive := false }] }

/-- Variant of `state0` with one coin already collected: used to witness the
score-increment properties. -/
def state5 : DungeonState :=
  { time := 0, turn := 0, layout := layout0,
    player := { position := ⟨0, 0⟩, alive := true,
                inventory := { daggers := 0, coins := 1, keys := 0 } },
    coins := ∅, daggers := ∅, keys := ∅,
    monsters := [{ position := ⟨2, 0⟩, alive := true }] }

/-- Variant of `state0` with its monster dead: used to witness the score-increment
properties. -/
def state6 : DungeonState :=
  { time := 0, turn := 0, layout := layout0,
    player := { position := ⟨0, 0⟩, alive := true,
                inventory := { daggers := 0, coins := 0, keys := 0 } },
    coins := ∅, daggers := ∅, keys := ∅,
    monsters := [{ position := ⟨2, 0⟩, alive := false }] }

/-- A mixed alive/dead monster list used to witness the turn-sequence
property. -/
def monstersMixed : List Monster :=
  [{ position := ⟨0, 0⟩, alive := true },
   { position := ⟨1, 0⟩, alive := false },
   { position := ⟨2, 0⟩, alive := true }]

/-! ### Helper lemmas -/

theorem Point.add_def (p q : Point) : p + q = ⟨p.x + q.x, p.y + q.y⟩ := rfl

theorem add_none_vector (p : Point) : p + Direction.NONE.to_vector = p := by
  cases p
  simp [Point.add_def, Direction.to_vector]

theorem playerStep_time (s : DungeonState) (a : Direction) :
    (playerStep s a).time = s.time := by
  unfold playerStep
  dsimp only
  repeat' split
  all_goals rfl

theorem monsterStep_time (s : DungeonState) (a : Direction) :
    (monsterStep s a).time = s.time := by
  unfold monsterStep
  dsimp only
  repeat' split
  all_goals rfl

theorem playerStep_turn (s : DungeonState) (a : Direction) :
    (playerStep s a).turn = s.turn := by
  unfold playerStep
  dsimp only
  repeat' split
  all_goals rfl

theorem monsterStep_turn (s : DungeonState) (a : Direction) :
    (monsterStep s a).turn = s.turn := by
  unfold monsterStep
  dsimp only
  repeat' split
  all_goals rfl

theorem advanceTurn_player (s : DungeonState) : (advanceTurn s).player = s.player := rfl

theorem advanceTurn_monsters (s : DungeonState) :
    (advanceTurn s).monsters = s.monsters := rfl

theorem advanceTurn_coins (s : DungeonState) : (advanceTurn s).coins = s.coins := rfl

theorem advanceTurn_daggers (s : DungeonState) :
    (advanceTurn s).daggers = s.daggers := rfl

theorem advanceTurn_keys (s : DungeonState) : (advanceTurn s).keys = s.keys := rfl

theorem advanceTurn_layout (s : DungeonState) :
    (advanceTurn s).layout = s.layout := rfl

theorem get_successor_player_turn (g : DungeonGame) (s : DungeonState)
    (a : Direction) (h0 : s.turn = 0) :
    g.get_successor s a = advanceTurn (playerStep s a) := by
  unfold DungeonGame.get_successor
  rw [if_pos h0]

theorem get_successor_monster_turn (g : DungeonGame) (s : DungeonState)
    (a : Direction) (h0 : s.turn ≠ 0) :
    g.get_successor s a = advanceTurn (monsterStep s a) := by
  unfold DungeonGame.get_successor
  rw [if_neg h0]

theorem monsterAt_eq_get (ms : List Monster) (i : Nat) (h : i < ms.length) :
    monsterAt ms i = ms.get ⟨i, h⟩ := List.getD_eq_getElem ms _ h

theorem monsterAt_of_ge (ms : List Monster) (i : Nat) (h : ms.length ≤ i) :
    (monsterAt ms i).alive = false := by
  unfold monsterAt
  rw [List.getD_eq_default _ _ h]

theorem nextTurnFrom_of_ge (ms : List Monster) (t : Nat) (h : ms.length ≤ t) :
    nextTurnFrom ms t = 0 := by
  unfold nextTurnFrom
  rw [dif_neg (not_lt.mpr h)]

theorem nextTurnFrom_of_alive (ms : List Monster) (t : Nat) (h : t < ms.length)
    (ha : (monsterAt ms t).alive = true) : nextTurnFrom ms t = t + 1 := by
  unfold nextTurnFrom
  rw [dif_pos h, if_pos]
  rw [← monsterAt_eq_get ms t h]
  exact ha

theorem nextTurnFrom_of_dead (ms : List Monster) (t : Nat) (h : t < ms.length)
    (ha : (monsterAt ms t).alive = false) :
    nextTurnFrom ms t = nextTurnFrom ms (t + 1) := by
  conv_lhs => rw [nextTurnFrom]
  rw [dif_pos h, if_neg]
  rw [← monsterAt_eq_get ms t h, ha]
  simp

theorem nextTurnFrom_spec (ms : List Monster) (t : Nat) :
    ((∀ i, t ≤ i → (monsterAt ms i).alive = false) ∧ nextTurnFrom ms t = 0) ∨
    (∃ i, t ≤ i ∧ i < ms.length ∧ (monsterAt ms i).alive = true ∧
      (∀ j, t ≤ j → j < i → (monsterAt ms j).alive = false) ∧
      nextTurnFrom ms t = i + 1) := by
  by_cases h : t < ms.length
  · by_cases ha : (monsterAt ms t).alive = true
    · right
      exact ⟨t, le_refl t, h, ha,
        fun j h1 h2 => absurd h2 (not_lt.mpr h1),
        nextTurnFrom_of_alive ms t h ha⟩
    · have ha' : (monsterAt ms t).alive = false := by
        cases hb : (monsterAt ms t).alive
        · rfl
        · exact absurd hb ha
      rcases nextTurnFrom_spec ms (t + 1) with ⟨hall, h0⟩ | ⟨i, hti, hil, hia, hmin, heq⟩
      · left
        refine ⟨?_, ?_⟩
        · intro i hi
          rcases eq_or_lt_of_le hi with rfl | hlt
          · exact ha'
          · exact hall i hlt
        · rw [nextTurnFrom_of_dead ms t h ha', h0]
      · right
        refine ⟨i, le_trans (Nat.le_succ t) hti, hil, hia, ?_, ?_⟩
        · intro j h1 h2
          rcases eq_or_lt_of_le h1 with rfl | hlt
          · exact ha'
          · exact hmin j hlt h2
        · rw [nextTurnFrom_of_dead ms t h ha', heq]
  · left
    exact ⟨fun i hi => monsterAt_of_ge ms i (le_trans (not_lt.mp h) hi),
      nextTurnFrom_of_ge ms t (not_lt.mp h)⟩
termination_by ms.length - t
decreasing_by omega

theorem aliveTurnsFrom_of_ge (ms : List Monster) (t : Nat) (h : ms.length ≤ t) :
    aliveTurnsFrom ms t = [] := by
  unfold aliveTurnsFrom
  rw [Nat.sub_eq_zero_of_le h]
  rfl

theorem aliveTurnsFrom_cons (ms : List Monster) (t : Nat) (h : t < ms.length) :
    aliveTurnsFrom ms t =
      (if (monsterAt ms t).alive = true then [t + 1] else []) ++ aliveTurnsFrom ms (t + 1) := by
  unfold aliveTurnsFrom
  have h1 : ms.length - t = (ms.length - (t + 1)) + 1 := by omega
  rw [h1, List.range'_succ, List.filter_cons]
  split
  · simp
  · simp

theorem turnTraceAux_spec (ms : List Monster) (t fuel : Nat)
    (hf : ms.length - t < fuel) :
    turnTraceAux ms t fuel = aliveTurnsFrom ms t := by
  cases fuel with
  | zero => exact absurd hf (Nat.not_lt_zero _)
  | succ f =>
    by_cases h : t < ms.length
    · by_cases ha : (monsterAt ms t).alive = true
      · have hn := nextTurnFrom_of_alive ms t h ha
        simp only [turnTraceAux]
        rw [hn, if_neg (Nat.succ_ne_zero t),
          turnTraceAux_spec ms (t + 1) f (by omega),
          aliveTurnsFrom_cons ms t h, if_pos ha]
        rfl
      · have ha' : (monsterAt ms t).alive = false := by
          cases hb : (monsterAt ms t).alive
          · rfl
          · exact absurd hb ha
        have hn := nextTurnFrom_of_dead ms t h ha'
        have h2 : turnTraceAux ms (t + 1) (f + 1) = aliveTurnsFrom ms (t + 1) :=
          turnTraceAux_spec ms (t + 1) (f + 1) (by omega)
        simp only [turnTraceAux] at h2 ⊢
        rw [hn, h2, aliveTurnsFrom_cons ms t h, if_neg ha]
        rfl
    · have hn := nextTurnFrom_of_ge ms t (not_lt.mp h)
      simp only [turnTraceAux]
      rw [hn, if_pos rfl, aliveTurnsFrom_of_ge ms t (not_lt.mp h)]
termination_by ms.length - t
decreasing_by all_goals omega

theorem turnTrace_spec (ms : List Monster) :
    turnTrace ms =
      ((List.range ms.length).filter (fun i => (monsterAt ms i).alive)).map
        (fun i => i + 1) := by
  unfold turnTrace
  rw [turnTraceAux_spec ms 0 (ms.length + 1) (by omega)]
  unfold aliveTurnsFrom
  rw [Nat.sub_zero, ← List.range_eq_range']

theorem getElem?_monsters_lt {ms : List Monster} {i : Nat} {m : Monster}
    (hm : ms[i]? = some m) : i < ms.length := by
  by_contra h
  rw [List.getElem?_eq_none (not_lt.mp h)] at hm
  simp at hm

theorem monsterAt_of_getElem? {ms : List Monster} {i : Nat} {m : Monster}
    (hm : ms[i]? = some m) : monsterAt ms i = m := by
  unfold monsterAt
  rw [List.getD_eq_getElem?_getD, hm]
  rfl

theorem get_actions_monster_mem (g : DungeonGame) (s : DungeonState)
    (a : Direction) (h0 : s.turn ≠ 0) (ha : a ∈ g.get_actions s) :
    s.turn - 1 < s.monsters.length ∧
    (monsterAt s.monsters (s.turn - 1)).alive = true ∧
    (monsterAt s.monsters (s.turn - 1)).position + a.to_vector ∈ s.layout.walkable ∧
    (monsterAt s.monsters (s.turn - 1)).position + a.to_vector ∉
      otherAlivePositions s.monsters (s.turn - 1) := by
  unfold DungeonGame.get_actions at ha
  rw [if_neg h0] at ha
  dsimp only at ha
  cases hm : s.monsters[s.turn - 1]? with
  | none =>
    rw [hm] at ha
    simp at ha
  | some m =>
    rw [hm] at ha
    dsimp only at ha
    have hlen := getElem?_monsters_lt hm
    have hmm := monsterAt_of_getElem? hm
    cases hal : m.alive with
    | false =>
      rw [hal] at ha
      simp at ha
    | true =>
      rw [hal] at ha
      rw [if_neg (by simp)] at ha
      rw [List.mem_filter, Bool.and_eq_true] at ha
      exact ⟨hlen, by rw [hmm]; exact hal,
        by rw [hmm]; exact of_decide_eq_true ha.2.1,
        by rw [hmm]; exact of_decide_eq_true ha.2.2⟩

theorem getElem?_eq_monsterAt (ms : List Monster) (i : Nat) (h : i < ms.length) :
    ms[i]? = some (monsterAt ms i) := by
  unfold monsterAt
  rw [List.getElem?_eq_getElem h, List.getD_eq_getElem]

theorem monsterAt_set_self (ms : List Monster) (i : Nat) (m : Monster)
    (h : i < ms.length) : monsterAt (ms.set i m) i = m := by
  unfold monsterAt
  rw [List.getD_eq_getElem?_getD, List.getElem?_set_self h]
  rfl

theorem monsterAt_set_ne (ms : List Monster) (i j : Nat) (m : Monster)
    (hj : j ≠ i) : monsterAt (ms.set i m) j = monsterAt ms j := by
  unfold monsterAt
  rw [List.getD_eq_getElem?_getD, List.getElem?_set_ne (fun h => hj h.symm)]
  exact (List.getD_eq_getElem?_getD _ _ _).symm

theorem playerStep_fields (s : DungeonState) (a : Direction) :
    (playerStep s a).layout = s.layout ∧
    (playerStep s a).player.position = s.player.position + a.to_vector ∧
    (playerStep s a).coins ⊆ s.coins ∧
    (playerStep s a).daggers ⊆ s.daggers ∧
    (playerStep s a).keys ⊆ s.keys ∧
    ((playerStep s a).monsters = s.monsters ∨
      (playerStep s a).monsters = s.monsters.map (fun m =>
        if m.position = s.player.position + a.to_vector ∧ m.alive = true
        then { m with alive := false } else m)) := by
  unfold playerStep
  dsimp only
  repeat' split
  all_goals refine ⟨rfl, rfl, ?_, ?_, ?_, ?_⟩
  all_goals first
    | exact Finset.erase_subset _ _
    | exact Finset.Subset.refl _
    | exact Or.inl rfl
    | exact Or.inr rfl

theorem get_actions_player_mem (g : DungeonGame) (s : DungeonState)
    (a : Direction) (h0 : s.turn = 0) (ha : a ∈ g.get_actions s) :
    s.player.position + a.to_vector ∈ s.layout.walkable := by
  unfold DungeonGame.get_actions at ha
  rw [if_pos h0, List.mem_filter] at ha
  exact of_decide_eq_true ha.2

/-! ### Claims -/

/-- C1, counterexample: in the concrete state `state0` (player's turn,
player on a walkable cell) the action list returned by `get_actions`
contains `NONE`, contradicting the claim that `NONE` never appears. -/
theorem get_actions_contains_none : Direction.NONE ∈ game0.get_actions state0 := by
  decide

/-- C1, amended: `get_actions` enumerates all five directions, `NONE`
included; `NONE` is returned exactly when the mover's own cell is
admissible — for the player, when their position is walkable; for the
monster whose turn it is, when it is alive, its cell is walkable and no
other alive monster occupies that cell. -/
theorem none_mem_get_actions_iff (g : DungeonGame) (s : DungeonState) :
    Direction.NONE ∈ g.get_actions s ↔
      (if s.turn = 0 then s.player.position ∈ s.layout.walkable
       else
        match s.monsters[s.turn - 1]? with
        | none => False
        | some m => m.alive = true ∧ m.position ∈ s.layout.walkable ∧
            m.position ∉ otherAlivePositions s.monsters (s.turn - 1)) := by
  unfold DungeonGame.get_actions
  by_cases h0 : s.turn = 0
  · simp only [h0, if_true, if_pos]
    simp [Direction.all, List.mem_filter, add_none_vector]
  · simp only [h0, if_false, if_neg]
    cases hm : s.monsters[s.turn - 1]? with
    | none => simp [hm]
    | some m =>
      cases hma : m.alive with
      | false => simp [hm, hma]
      | true => simp [hm, hma, Direction.all, List.mem_filter, add_none_vector]

/-- C7: the clock of the successor state advances by exactly one when the
successor's turn is `0` (control returns to the player) and is unchanged
otherwise. -/
theorem get_successor_time (g : DungeonGame) (s : DungeonState) (a : Direction) :
    (g.get_successor s a).time =
      if (g.get_successor s a).turn = 0 then s.time + 1 else s.time := by
  unfold DungeonGame.get_successor advanceTurn
  have h : (if s.turn = 0 then playerStep s a else monsterStep s a).time = s.time := by
    split
    · exact playerStep_time s a
    · exact monsterStep_time s a
  dsimp only
  split <;> simp_all

/-- C4: `is_terminal` wins exactly when a key is held at the exit, paying
the player `INFINITY + score` and every monster its exact negation; on a
loss (dead player, not a win) it pays `-INFINITY` to the player and
`+INFINITY` to every monster, ignoring the score; otherwise the game is not
terminal and no payoffs are produced. -/
theorem is_terminal_spec (g : DungeonGame) (s : DungeonState) :
    ((s.player.inventory.keys ≠ 0 ∧ s.player.position = g.layout.exitCell) →
      g.is_terminal s =
        (true, some ((INFINITY + s.score) ::
          s.monsters.map (fun _ => -(INFINITY + s.score))))) ∧
    (¬(s.player.inventory.keys ≠ 0 ∧ s.player.position = g.layout.exitCell) →
      s.player.alive = false →
      g.is_terminal s =
        (true, some ((-INFINITY) :: s.monsters.map (fun _ => INFINITY)))) ∧
    (¬(s.player.inventory.keys ≠ 0 ∧ s.player.position = g.layout.exitCell) →
      s.player.alive = true →
      g.is_terminal s = (false, none)) := by
  refine ⟨?_, ?_, ?_⟩
  · intro hw
    simp [DungeonGame.is_terminal, hw]
  · intro hw hd
    simp [DungeonGame.is_terminal, hw, hd]
  · intro hw ha
    simp [DungeonGame.is_terminal, hw, ha]

/-- C4, witness: the three branches of `is_terminal` evaluated on the
concrete states `state4` (win), `state3` (loss) and `state0` (ongoing). -/
theorem is_terminal_spec_witness :
    (game0.is_terminal state4 =
      (true, some ((INFINITY + state4.score) ::
        state4.monsters.map (fun _ => -(INFINITY + state4.score))))) ∧
    (game0.is_terminal state3 =
      (true, some ((-INFINITY) :: state3.monsters.map (fun _ => INFINITY)))) ∧
    (game0.is_terminal state0 = (false, none)) :=
  ⟨(is_terminal_spec game0 state4).1 (by decide),
   (is_terminal_spec game0 state3).2.1 (by decide) rfl,
   (is_terminal_spec game0 state0).2.2 (by decide) rfl⟩

/-- C8: `score` is exactly coins plus ten per dead monster minus one tenth
of the elapsed time; consequently it is non-increasing in `time` with the
other terms fixed, rises by exactly 1 per collected coin and by exactly 10
per newly-dead monster. -/
theorem score_spec :
    (∀ s : DungeonState,
      s.score = (s.player.inventory.coins : ℚ) + 10 * (deadCount s.monsters : ℚ)
        - (1 / 10) * (s.time : ℚ)) ∧
    (∀ s t : DungeonState,
      t.player.inventory.coins = s.player.inventory.coins →
      deadCount t.monsters = deadCount s.monsters →
      s.time ≤ t.time → t.score ≤ s.score) ∧
    (∀ s t : DungeonState,
      t.player.inventory.coins = s.player.inventory.coins + 1 →
      deadCount t.monsters = deadCount s.monsters →
      t.time = s.time → t.score = s.score + 1) ∧
    (∀ s t : DungeonState,
      t.player.inventory.coins = s.player.inventory.coins →
      deadCount t.monsters = deadCount s.monsters + 1 →
      t.time = s.time → t.score = s.score + 10) := by
  refine ⟨fun s => rfl, ?_, ?_, ?_⟩
  · intro s t hc hd ht
    unfold DungeonState.score
    rw [hc, hd]
    have : (s.time : ℚ) ≤ (t.time : ℚ) := by exact_mod_cast ht
    linarith
  · intro s t hc hd ht
    unfold DungeonState.score
    rw [hc, hd, ht]
    push_cast
    ring
  · intro s t hc hd ht
    unfold DungeonState.score
    rw [hc, hd, ht]
    push_cast
    ring

/-- C8, witness: the score formula and its three increment properties on
the concrete states `state0`, `state3` (one more time tick), `state5` (one
more coin) and `state6` (one more dead monster). -/
theorem score_spec_witness :
    (state0.score = (0 : ℚ) + 10 * 0 - (1 / 10) * 0) ∧
    (state3.score ≤ state0.score) ∧
    (state5.score = state0.score + 1) ∧
    (state6.score = state0.score + 10) :=
  ⟨by have h := score_spec.1 state0; simpa [state0, deadCount] using h,
   score_spec.2.1 state0 state3 rfl (by decide) (by decide),
   score_spec.2.2.1 state0 state5 (by decide) (by decide) rfl,
   score_spec.2.2.2 state0 state6 rfl (by decide) rfl⟩

/-- C5: `next_turn` returns `i + 1` for the smallest alive monster index
`i ≥ turn`, and `0` when there is none; consequently iterating
`turn := next_turn` from turn `0` visits exactly the alive monster indices,
each once, in increasing order, before returning to `0`. -/
theorem next_turn_spec :
    (∀ s : DungeonState,
      ((∀ i, s.turn ≤ i → (monsterAt s.monsters i).alive = false) ∧
        s.next_turn = 0) ∨
      (∃ i, s.turn ≤ i ∧ i < s.monsters.length ∧
        (monsterAt s.monsters i).alive = true ∧
        (∀ j, s.turn ≤ j → j < i → (monsterAt s.monsters j).alive = false) ∧
        s.next_turn = i + 1)) ∧
    (∀ ms : List Monster,
      turnTrace ms =
        ((List.range ms.length).filter (fun i => (monsterAt ms i).alive)).map
          (fun i => i + 1)) :=
  ⟨fun s => nextTurnFrom_spec s.monsters s.turn, turnTrace_spec⟩

/-- C5, witness: on the concrete list `monstersMixed` (alive, dead, alive)
the iterated turn sequence is `[1, 3]` — each alive index once, in order,
skipping the dead monster. -/
theorem next_turn_spec_witness : turnTrace monstersMixed = [1, 3] := by
  rw [next_turn_spec.2 monstersMixed]
  decide

/-- C2: on the player's turn, with `M` the number of alive monsters at the
player's new position and `d0` the dagger count after item pickup — if
`0 < M` and `d0 < M` the player dies with the dagger count reset to `0`; if
`0 < M ≤ d0` every alive monster on that cell dies, the dagger count drops
by exactly `M` and the player's alive flag is unchanged; if `M = 0` combat
changes no alive flag and no dagger count. -/
theorem player_combat_spec (g : DungeonGame) (s : DungeonState) (a : Direction)
    (h0 : s.turn = 0)
    (new_position : Point)
    (hpos : new_position = s.player.position + a.to_vector)
    (M : Nat)
    (hM : M = (s.monsters.filter
      (fun m => decide (m.position = new_position) && m.alive)).length)
    (d0 : Int)
    (hd0 : d0 = s.player.inventory.daggers +
      (if new_position ∈ s.daggers then 1 else 0)) :
    (0 < M → d0 < (M : Int) →
      (g.get_successor s a).player.alive = false ∧
      (g.get_successor s a).player.inventory.daggers = 0) ∧
    (0 < M → (M : Int) ≤ d0 →
      (g.get_successor s a).player.alive = s.player.alive ∧
      (g.get_successor s a).player.inventory.daggers = d0 - (M : Int) ∧
      (g.get_successor s a).monsters = s.monsters.map (fun m =>
        if m.position = new_position ∧ m.alive = true then { m with alive := false }
        else m)) ∧
    (M = 0 →
      (g.get_successor s a).player.alive = s.player.alive ∧
      (g.get_successor s a).player.inventory.daggers = d0 ∧
      (g.get_successor s a).monsters = s.monsters) := by
  subst hpos
  subst hM
  subst hd0
  rw [get_successor_player_turn g s a h0]
  simp only [advanceTurn_player, advanceTurn_monsters]
  unfold playerStep
  dsimp only
  refine ⟨?_, ?_, ?_⟩
  · intro hM0 hlt
    rw [if_pos hM0, if_pos hlt]
    exact ⟨rfl, rfl⟩
  · intro hM0 hge
    rw [if_pos hM0, if_neg (not_lt.mpr hge)]
    exact ⟨rfl, rfl, rfl⟩
  · intro hM0
    rw [if_neg (by omega)]
    exact ⟨rfl, rfl, rfl⟩

/-- C2, witness: in `state1` the player holds 2 daggers and steps RIGHT
onto two alive monsters — both die, the daggers drop from 2 to 0 and the
player survives. -/
theorem player_combat_spec_witness :
    (game0.get_successor state1 Direction.RIGHT).player.alive = state1.player.alive ∧
    (game0.get_successor state1 Direction.RIGHT).player.inventory.daggers =
      (2 : Int) - ((2 : Nat) : Int) ∧
    (game0.get_successor state1 Direction.RIGHT).monsters = state1.monsters.map
      (fun m =>
        if m.position = (⟨2, 0⟩ : Point) ∧ m.alive = true then { m with alive := false }
        else m) :=
  (player_combat_spec game0 state1 Direction.RIGHT rfl ⟨2, 0⟩ (by decide) 2
    (by decide) 2 (by decide)).2.1 (by decide) (by decide)

/-- C3: on monster `turn - 1`'s turn with a legal action whose destination
is the player's cell — if the player holds at least one dagger, exactly that
monster dies (the others are untouched) and the dagger count drops by
exactly one; if the player holds no dagger, the player dies, the monster
stays alive and the dagger count is unchanged. -/
theorem monster_combat_spec (g : DungeonGame) (s : DungeonState) (a : Direction)
    (h0 : s.turn ≠ 0) (ha : a ∈ g.get_actions s)
    (hmeet : (monsterAt s.monsters (s.turn - 1)).position + a.to_vector =
      s.player.position) :
    (s.player.inventory.daggers ≠ 0 →
      (monsterAt (g.get_successor s a).monsters (s.turn - 1)).alive = false ∧
      (g.get_successor s a).player.inventory.daggers =
        s.player.inventory.daggers - 1 ∧
      (g.get_successor s a).player.alive = s.player.alive ∧
      (∀ j, j ≠ s.turn - 1 →
        monsterAt (g.get_successor s a).monsters j = monsterAt s.monsters j)) ∧
    (s.player.inventory.daggers = 0 →
      (g.get_successor s a).player.alive = false ∧
      (monsterAt (g.get_successor s a).monsters (s.turn - 1)).alive = true ∧
      (g.get_successor s a).player.inventory.daggers =
        s.player.inventory.daggers ∧
      (∀ j, j ≠ s.turn - 1 →
        monsterAt (g.get_successor s a).monsters j = monsterAt s.monsters j)) := by
  obtain ⟨hlen, halive, _, _⟩ := get_actions_monster_mem g s a h0 ha
  rw [get_successor_monster_turn g s a h0]
  simp only [advanceTurn_player, advanceTurn_monsters]
  unfold monsterStep
  dsimp only
  have hm : s.monsters[s.turn - 1]? = some (monsterAt s.monsters (s.turn - 1)) := by
    unfold monsterAt
    rw [List.getElem?_eq_getElem hlen, List.getD_eq_getElem]
  rw [hm]
  dsimp only
  rw [if_pos hmeet]
  refine ⟨?_, ?_⟩
  · intro hd
    rw [if_pos hd]
    refine ⟨?_, rfl, rfl, ?_⟩
    · unfold monsterAt
      rw [List.getD_eq_getElem?_getD, List.getElem?_set_self (by simpa using hlen)]
      rfl
    · intro j hj
      unfold monsterAt
      rw [List.getD_eq_getElem?_getD, List.getD_eq_getElem?_getD,
        List.getElem?_set_ne (fun h => hj h.symm)]
      exact (List.getD_eq_getElem?_getD _ _ _).symm
  · intro hd
    rw [if_neg (fun h => h hd)]
    refine ⟨rfl, ?_, rfl, ?_⟩
    · unfold monsterAt
      rw [List.getD_eq_getElem?_getD, List.getElem?_set_self (by simpa using hlen)]
      exact halive
    · intro j hj
      unfold monsterAt
      rw [List.getD_eq_getElem?_getD, List.getD_eq_getElem?_getD,
        List.getElem?_set_ne (fun h => hj h.symm)]
      exact (List.getD_eq_getElem?_getD _ _ _).symm

/-- C3, witness: in `state2` (monster's turn, player holding one dagger)
the monster steps LEFT onto the player — the monster dies, the dagger count
drops from 1 to 0 and the player survives. -/
theorem monster_combat_spec_witness :
    (monsterAt (game0.get_successor state2 Direction.LEFT).monsters
      (state2.turn - 1)).alive = false ∧
    (game0.get_successor state2 Direction.LEFT).player.inventory.daggers =
      state2.player.inventory.daggers - 1 ∧
    (game0.get_successor state2 Direction.LEFT).player.alive =
      state2.player.alive := by
  have h := (monster_combat_spec game0 state2 Direction.LEFT (by decide)
    (by decide) (by decide)).1 (by decide)
  exact ⟨h.1, h.2.1, h.2.2.1⟩

/-- C10: a monster's move changes nothing beyond its own record, the
player's alive flag and dagger counter, and the turn/time fields — the
floor item sets, the layout, the player's position, coin and key counters,
and every other monster are exactly unchanged. -/
theorem monster_turn_frame (g : DungeonGame) (s : DungeonState) (a : Direction)
    (h0 : s.turn ≠ 0) (hlen : s.turn - 1 < s.monsters.length) :
    (g.get_successor s a).coins = s.coins ∧
    (g.get_successor s a).daggers = s.daggers ∧
    (g.get_successor s a).keys = s.keys ∧
    (g.get_successor s a).layout = s.layout ∧
    (g.get_successor s a).player.position = s.player.position ∧
    (g.get_successor s a).player.inventory.coins = s.player.inventory.coins ∧
    (g.get_successor s a).player.inventory.keys = s.player.inventory.keys ∧
    (g.get_successor s a).monsters.length = s.monsters.length ∧
    (∀ j, j ≠ s.turn - 1 →
      monsterAt (g.get_successor s a).monsters j = monsterAt s.monsters j) := by
  rw [get_successor_monster_turn g s a h0]
  simp only [advanceTurn_coins, advanceTurn_daggers, advanceTurn_keys,
    advanceTurn_layout, advanceTurn_player, advanceTurn_monsters]
  unfold monsterStep
  dsimp only
  rw [getElem?_eq_monsterAt s.monsters (s.turn - 1) hlen]
  dsimp only
  split
  · split
    · exact ⟨rfl, rfl, rfl, rfl, rfl, rfl, rfl, List.length_set s.monsters _ _,
        fun j hj => monsterAt_set_ne s.monsters _ j _ hj⟩
    · exact ⟨rfl, rfl, rfl, rfl, rfl, rfl, rfl, List.length_set s.monsters _ _,
        fun j hj => monsterAt_set_ne s.monsters _ j _ hj⟩
  · exact ⟨rfl, rfl, rfl, rfl, rfl, rfl, rfl, List.length_set s.monsters _ _,
      fun j hj => monsterAt_set_ne s.monsters _ j _ hj⟩

/-- C10, witness: the monster move of `state2` (LEFT, onto the player)
leaves the floor sets, the player's position and the player's coin counter
unchanged. -/
theorem monster_turn_frame_witness :
    (game0.get_successor state2 Direction.LEFT).coins = state2.coins ∧
    (game0.get_successor state2 Direction.LEFT).player.position =
      state2.player.position ∧
    (game0.get_successor state2 Direction.LEFT).player.inventory.coins =
      state2.player.inventory.coins := by
  have h := monster_turn_frame game0 state2 Direction.LEFT (by decide) (by decide)
  exact ⟨h.1, h.2.2.2.2.1, h.2.2.2.2.2.1⟩

/-- C6: every legal successor of a state satisfying the §3 invariants
(player and alive monsters on walkable cells, pairwise-disjoint floor sets)
satisfies them again. -/
theorem invariants_preserved (g : DungeonGame) (s : DungeonState) (a : Direction)
    (hInv : Inv s) (ha : a ∈ g.get_actions s) : Inv (g.get_successor s a) := by
  obtain ⟨hp, hmw, hcd, hck, hdk⟩ := hInv
  by_cases h0 : s.turn = 0
  · have hdest := get_actions_player_mem g s a h0 ha
    rw [get_successor_player_turn g s a h0]
    obtain ⟨hlay, hppos, hsubc, hsubd, hsubk, hmons⟩ := playerStep_fields s a
    unfold Inv
    simp only [advanceTurn_player, advanceTurn_monsters, advanceTurn_coins,
      advanceTurn_daggers, advanceTurn_keys, advanceTurn_layout, hlay, hppos]
    refine ⟨hdest, ?_,
      fun p hpc hpd => hcd p (hsubc hpc) (hsubd hpd),
      fun p hpc hpk => hck p (hsubc hpc) (hsubk hpk),
      fun p hpd hpk => hdk p (hsubd hpd) (hsubk hpk)⟩
    intro x hx hxa
    rcases hmons with hm | hm
    · rw [hm] at hx
      exact hmw x hx hxa
    · rw [hm, List.mem_map] at hx
      obtain ⟨m0, hm0, rfl⟩ := hx
      by_cases hc : m0.position = s.player.position + a.to_vector ∧
          m0.alive = true
      · rw [if_pos hc] at hxa
        simp at hxa
      · rw [if_neg hc] at hxa ⊢
        exact hmw m0 hm0 hxa
  · obtain ⟨hlen, halive, hwdest, _⟩ := get_actions_monster_mem g s a h0 ha
    rw [get_successor_monster_turn g s a h0]
    unfold Inv
    simp only [advanceTurn_player, advanceTurn_monsters, advanceTurn_coins,
      advanceTurn_daggers, advanceTurn_keys, advanceTurn_layout]
    unfold monsterStep
    dsimp only
    rw [getElem?_eq_monsterAt s.monsters (s.turn - 1) hlen]
    dsimp only
    split
    · split
      · refine ⟨hp, ?_, hcd, hck, hdk⟩
        intro x hx hxa
        rcases List.mem_or_eq_of_mem_set hx with hx' | rfl
        · exact hmw x hx' hxa
        · simp at hxa
      · refine ⟨hp, ?_, hcd, hck, hdk⟩
        intro x hx hxa
        rcases List.mem_or_eq_of_mem_set hx with hx' | rfl
        · exact hmw x hx' hxa
        · exact hwdest
    · refine ⟨hp, ?_, hcd, hck, hdk⟩
      intro x hx hxa
      rcases List.mem_or_eq_of_mem_set hx with hx' | rfl
      · exact hmw x hx' hxa
      · exact hwdest

/-- C6, witness: `state0` satisfies the invariants, RIGHT is legal there,
and the successor satisfies them again. -/
theorem invariants_preserved_witness :
    Inv (game0.get_successor state0 Direction.RIGHT) :=
  invariants_preserved game0 state0 Direction.RIGHT
    (by unfold Inv; exact ⟨by decide, by decide, by decide, by decide, by decide⟩)
    (by decide)

/-- C9: the monster policy resamples whenever the committed direction is
NONE or is no longer legal (independently of the random float draw); on a
resample it commits to the drawn movement action (or NONE when none is
legal) and resets the step counter; the step counter always grows by
exactly one after the decision and the committed direction is returned. -/
theorem monster_act_spec (g : DungeonGame) (s : DungeonState)
    (agent : MonsterAgentState) (fE : Bool) (intDraw : Nat)
    (movement : List Direction)
    (hmov : movement =
      (g.get_actions s).filter (fun x => decide (x ≠ Direction.NONE))) :
    ((agent.current_direction = Direction.NONE ∨
        agent.current_direction ∉ g.get_actions s) →
      monsterAct g s agent fE intDraw = monsterAct g s agent (!fE) intDraw) ∧
    ((agent.current_direction = Direction.NONE ∨
        agent.current_direction ∉ g.get_actions s ∨ fE = true) →
      movement ≠ [] → intDraw < movement.length →
      (monsterAct g s agent fE intDraw).2.current_direction =
        movement.getD intDraw Direction.NONE ∧
      (monsterAct g s agent fE intDraw).2.steps = 1) ∧
    ((agent.current_direction = Direction.NONE ∨
        agent.current_direction ∉ g.get_actions s ∨ fE = true) →
      movement = [] →
      (monsterAct g s agent fE intDraw).2.current_direction = Direction.NONE ∧
      (monsterAct g s agent fE intDraw).2.steps = 1) ∧
    (¬(agent.current_direction = Direction.NONE ∨
        agent.current_direction ∉ g.get_actions s ∨ fE = true) →
      (monsterAct g s agent fE intDraw).2.current_direction =
        agent.current_direction ∧
      (monsterAct g s agent fE intDraw).2.steps = agent.steps + 1) ∧
    ((monsterAct g s agent fE intDraw).1 =
      (monsterAct g s agent fE intDraw).2.current_direction) := by
  subst hmov
  unfold monsterAct selectNewAction
  dsimp only
  refine ⟨?_, ?_, ?_, ?_, ?_⟩
  · intro h
    have h1 : agent.current_direction = Direction.NONE ∨
        agent.current_direction ∉ g.get_actions s ∨ fE = true := by
      rcases h with h | h
      · exact Or.inl h
      · exact Or.inr (Or.inl h)
    have h2 : agent.current_direction = Direction.NONE ∨
        agent.current_direction ∉ g.get_actions s ∨ (!fE) = true := by
      rcases h with h | h
      · exact Or.inl h
      · exact Or.inr (Or.inl h)
    rw [if_pos h1, if_pos h2]
  · intro hr hne hlt
    rw [if_pos hr, if_neg (fun h => hne (List.isEmpty_iff.mp h))]
    exact ⟨rfl, rfl⟩
  · intro hr he
    rw [if_pos hr, if_pos (List.isEmpty_iff.mpr he)]
    exact ⟨rfl, rfl⟩
  · intro hr
    rw [if_neg hr]
    exact ⟨rfl, rfl⟩
  · rfl

/-- C9, witness: a monster committed to NONE in `state0` (legal actions
RIGHT and NONE, movement actions `[RIGHT]`) resamples: with index draw 0 it
commits to RIGHT and its step counter becomes 1. -/
theorem monster_act_spec_witness :
    (monsterAct game0 state0 { current_direction := Direction.NONE, steps := 0 }
      false 0).2.current_direction = [Direction.RIGHT].getD 0 Direction.NONE ∧
    (monsterAct game0 state0 { current_direction := Direction.NONE, steps := 0 }
      false 0).2.steps = 1 :=
  (monster_act_spec game0 state0 { current_direction := Direction.NONE, steps := 0 }
    false 0 [Direction.RIGHT] (by decide)).2.1 (Or.inl rfl) (by decide) (by decide)

end Dungeon
